import Mathlib

/-!
Verification of the secret-manager-operator synchronization logic.

The Go sources embedded here:
- `secret-manager/internal/controller/secretmanager_controller.go`:
  `Reconcile` — fetch the AWS secret, decode it, diff against the existing
  Kubernetes secret and create/update it, requeue after 10 seconds.
- `infra-aws-go/cmd/lambda_sync_secret.go`: `HandleRequest`,
  `getSecretFromAWS`, `updateKubernetesSecret` — the event-driven variant.

Payload values are Go `[]byte`; we model a byte sequence as `List Nat`
(the code-point sequence of the Go string — an injective image of the
UTF-8 bytes, which is all byte-exact comparison needs).  External calls
(AWS SDK, Kubernetes client, `json.Unmarshal`) are modelled as oracle
inputs: each embedded function takes the outcome the library call would
return, and the function body reproduces the Go control flow around them.
-/

namespace SecretSync

/-- A byte sequence (a Go `[]byte`). -/
abbrev Bytes := List Nat

/-- A secret payload: a Go `map[string][]byte`, modelled as an association
list.  Go maps have unique keys; theorems that need this take a `Nodup`
hypothesis on `keys`. -/
abbrev Payload := List (String × Bytes)

/-- The key set of a payload, as a list. -/
def keys (p : Payload) : List String := p.map Prod.fst

/-- Go map indexing `p[k]`: `some v` when present, `none` when absent. -/
def lookupB (k : String) : Payload → Option Bytes
  | [] => none
  | kv :: rest => if kv.1 = k then some kv.2 else lookupB k rest

/-- Go `[]byte(s)` for a Go string: the byte-exact content of `s`. -/
def strBytes (s : String) : Bytes := s.toList.map Char.toNat

/-- The sync decision of the spec's DiffPolicy (never persisted). -/
inductive SyncDecision
  | NoOp
  | Create
  | Update
deriving Repr, DecidableEq

/-- A Kubernetes `v1.Secret` object: the fields the sources read or write,
plus `extra` standing for every other field of the object (resource
version, creation timestamp, ...) that the sync code never touches. -/
structure SinkSecret where
  name : String
  namespc : String
  labels : List (String × String)
  annotations : List (String × String)
  ownerRefs : List String
  data : Payload
  secretType : String
  extra : List (String × String)
deriving Repr, DecidableEq

/-- `secretmanager_controller.go` lines 124-134: the reconciler's diff.
`needUpdate` is true when the key counts differ, or some key of the
desired data is absent from the existing data or bound to different
bytes. -/
def needUpdate (existing desired : Payload) : Bool :=
  if existing.length ≠ desired.length then true
  else desired.any fun kv =>
    match lookupB kv.1 existing with
    | none => true
    | some ev => ev ≠ kv.2

/-- The spec's `DiffPolicy.Decide`: absent observed payload decides Create
(controller line 146-152); otherwise Update exactly when `needUpdate`
(lines 122-145), else NoOp. -/
def Decide (desired : Payload) (observed : Option Payload) : SyncDecision :=
  match observed with
  | none => SyncDecision.Create
  | some existing =>
      if needUpdate existing desired then SyncDecision.Update else SyncDecision.NoOp

/-! ### Lookup lemmas -/

theorem lookupB_eq_none_iff (k : String) (p : Payload) :
    lookupB k p = none ↔ k ∉ keys p := by
  induction p with
  | nil => simp [lookupB, keys]
  | cons kv rest ih =>
    simp only [keys, List.map_cons, List.mem_cons, lookupB] at *
    by_cases h : kv.1 = k
    · simp [h]
    · rw [if_neg h, ih]
      constructor
      · intro hk hor
        rcases hor with h1 | h1
        · exact h h1.symm
        · exact hk h1
      · intro hk h1
        exact hk (Or.inr h1)

theorem mem_of_lookupB_eq_some {k : String} {v : Bytes} {p : Payload}
    (h : lookupB k p = some v) : (k, v) ∈ p := by
  induction p with
  | nil => simp [lookupB] at h
  | cons kv rest ih =>
    by_cases hk : kv.1 = k
    · simp [lookupB, hk] at h
      subst hk h
      exact List.mem_cons_self _ _
    · simp [lookupB, hk] at h
      exact List.mem_cons_of_mem _ (ih h)

theorem lookupB_eq_some_of_mem {k : String} {v : Bytes} {p : Payload}
    (hnd : (keys p).Nodup) (h : (k, v) ∈ p) : lookupB k p = some v := by
  induction p with
  | nil => simp at h
  | cons kv rest ih =>
    rcases List.mem_cons.mp h with h1 | h1
    · subst h1
      simp [lookupB]
    · have hk : kv.1 ≠ k := by
        intro hkk
        have hkmem : k ∈ keys rest := List.mem_map.mpr ⟨(k, v), h1, rfl⟩
        rw [keys, List.map_cons, List.nodup_cons] at hnd
        exact hnd.1 (hkk ▸ hkmem)
      have hnd' : (keys rest).Nodup := by
        rw [keys, List.map_cons, List.nodup_cons] at hnd
        exact hnd.2
      simp [lookupB, hk, ih hnd' h1]

theorem lookupB_isSome_iff (k : String) (p : Payload) :
    (lookupB k p).isSome ↔ k ∈ keys p := by
  constructor
  · intro h
    cases hl : lookupB k p with
    | none => rw [hl] at h; simp at h
    | some v => exact List.mem_map.mpr ⟨(k, v), mem_of_lookupB_eq_some hl, rfl⟩
  · intro h
    cases hl : lookupB k p with
    | none => exact absurd h (by simpa using (lookupB_eq_none_iff k p).mp hl)
    | some v => simp

theorem keys_length (p : Payload) : (keys p).length = p.length := by
  simp [keys]

/-- Unfolding of `needUpdate = false` into its two checks. -/
theorem needUpdate_eq_false_iff (ex de : Payload) :
    needUpdate ex de = false ↔
      ex.length = de.length ∧ ∀ kv ∈ de, lookupB kv.1 ex = some kv.2 := by
  unfold needUpdate
  by_cases hlen : ex.length = de.length
  · rw [if_neg (by simp [hlen])]
    rw [List.any_eq_false]
    constructor
    · intro h
      refine ⟨hlen, fun kv hkv => ?_⟩
      have hh := h kv hkv
      cases hl : lookupB kv.1 ex with
      | none => rw [hl] at hh; simp at hh
      | some ev =>
        rw [hl] at hh
        simp at hh
        rw [hh]
    · rintro ⟨-, h⟩ kv hkv
      rw [h kv hkv]
      simp
  · rw [if_pos (by simp [hlen])]
    simp [hlen]

/-- With unique keys on both sides, `needUpdate ex de = false` says exactly
that `de` and `ex` are equal as key-to-bytes maps. -/
theorem needUpdate_eq_false_iff_mapeq (ex de : Payload)
    (hex : (keys ex).Nodup) (hde : (keys de).Nodup) :
    needUpdate ex de = false ↔ ∀ k, lookupB k de = lookupB k ex := by
  rw [needUpdate_eq_false_iff]
  constructor
  · rintro ⟨hlen, hall⟩ k
    have hsub : keys de ⊆ keys ex := by
      intro a ha
      rcases List.mem_map.mp ha with ⟨kv, hkv, rfl⟩
      have := hall kv hkv
      exact List.mem_map.mpr ⟨(kv.1, kv.2), mem_of_lookupB_eq_some this, rfl⟩
    have hfin : (keys de).toFinset = (keys ex).toFinset := by
      apply Finset.eq_of_subset_of_card_le
      · intro a ha
        exact List.mem_toFinset.mpr (hsub (List.mem_toFinset.mp ha))
      · rw [List.toFinset_card_of_nodup hex, List.toFinset_card_of_nodup hde,
          keys_length, keys_length, hlen]
    by_cases hk : k ∈ keys de
    · rcases List.mem_map.mp hk with ⟨kv, hkv, rfl⟩
      rw [lookupB_eq_some_of_mem hde (by exact hkv), hall kv hkv]
    · have hk2 : k ∉ keys ex := by
        intro hmem
        exact hk (List.mem_toFinset.mp (hfin ▸ List.mem_toFinset.mpr hmem))
      rw [(lookupB_eq_none_iff k de).mpr hk, (lookupB_eq_none_iff k ex).mpr hk2]
  · intro heq
    have hkeys : ∀ k, k ∈ keys de ↔ k ∈ keys ex := by
      intro k
      rw [← lookupB_isSome_iff, ← lookupB_isSome_iff, heq k]
    constructor
    · have hperm : (keys de).toFinset = (keys ex).toFinset := by
        ext a
        simp [List.mem_toFinset, hkeys a]
      have := congrArg Finset.card hperm
      rw [List.toFinset_card_of_nodup hde, List.toFinset_card_of_nodup hex,
        keys_length, keys_length] at this
      omega
    · intro kv hkv
      rw [← heq kv.1]
      exact lookupB_eq_some_of_mem hde (by exact hkv)

/-! ### Controller embedding (`secretmanager_controller.go`, `Reconcile`)

External calls are oracle inputs: `SmGetResult` is the outcome of
`r.Get` on the `SecretManager` object, `SinkFetchResult` the outcome of
`r.Get` on the existing `v1.Secret` (`client.IgnoreNotFound` separates
not-found from other errors), and `Except String Unit` oracles stand for
`config.LoadDefaultConfig`, `SetControllerReference`, `r.Create` and
`r.Update`.  A failed `r.Create`/`r.Update` is modelled as leaving the
cluster state unchanged (the single store call fails atomically). -/

/-- Outcome of fetching the `SecretManager` custom resource (controller
lines 61-65): found (with its name, the sink secret name `Spec.Name`, and
namespace; `Spec.SourceSecretName` selects the source-fetch oracle),
not found, or another error. -/
inductive SmGetResult
  | ok (smName specName ns : String)
  | notFound
  | errOther (msg : String)
deriving Repr, DecidableEq

/-- Outcome of `r.Get` on the existing sink secret (controller line 121)
or `secretsClient.Get` in the lambda. -/
inductive SinkFetchResult
  | found (s : SinkSecret)
  | notFound
  | errOther (msg : String)
deriving Repr, DecidableEq

/-- The value in the AWS `GetSecretValue` output: `SecretString` set,
`SecretBinary` set, or neither. -/
inductive AwsValue
  | str (s : String)
  | bin (b : Bytes)
  | neither
deriving Repr, DecidableEq

/-- Controller lines 87-101: build the payload from the AWS value.  The
`parse` oracle is `json.Unmarshal` into `map[string]string`: on a string
value a parse failure is returned as the cycle's error; on success every
entry's value becomes its bytes.  A binary value goes under the single
key `"secret"`; neither leaves the payload empty. -/
def parseSecretData (parse : String → Except String (List (String × String))) :
    AwsValue → Except String Payload
  | AwsValue.str s =>
      match parse s with
      | Except.error e => Except.error e
      | Except.ok pairs => Except.ok (pairs.map fun kv => (kv.1, strBytes kv.2))
  | AwsValue.bin b => Except.ok [("secret", b)]
  | AwsValue.neither => Except.ok []

/-- Controller lines 103-117: the `v1.Secret` the reconciler constructs —
name `sm.Spec.Name`, the request namespace, the parsed data, type
`Opaque`, and (via `SetControllerReference`) an owner reference to the
`SecretManager` object.  No labels and no annotations are set. -/
def mkK8sSecret (specName ns owner : String) (data : Payload) : SinkSecret :=
  { name := specName, namespc := ns, labels := [], annotations := [],
    ownerRefs := [owner], data := data, secretType := "Opaque", extra := [] }

/-- Observable outcome of the create-or-update tail of `Reconcile`. -/
structure CoreOutcome where
  err : Option String
  requeueAfterSec : Option Nat
  sink : Option SinkSecret
  writes : Nat
  decision : Option SyncDecision
deriving Repr, DecidableEq

/-- Controller lines 103-161: set the owner reference, fetch the existing
secret, diff, and create/update/no-op; on reaching the end return
`RequeueAfter: time.Second * 10`.  `sink0` is the cluster's secret state
before the call; `writes` counts `r.Create`/`r.Update` invocations;
`decision` records which branch (the spec's SyncDecision) was taken. -/
def reconcileCore (specName ns owner : String) (data : Payload)
    (ownerRefResult : Except String Unit)
    (sinkFetch : SinkFetchResult)
    (createResult updateResult : Except String Unit)
    (sink0 : Option SinkSecret) : CoreOutcome :=
  match ownerRefResult with
  | Except.error e => ⟨some e, none, sink0, 0, none⟩
  | Except.ok _ =>
    let k8sSecret := mkK8sSecret specName ns owner data
    match sinkFetch with
    | SinkFetchResult.found existing =>
        if needUpdate existing.data k8sSecret.data then
          let updated := { existing with
            data := k8sSecret.data, secretType := k8sSecret.secretType }
          match updateResult with
          | Except.error e => ⟨some e, none, sink0, 1, some SyncDecision.Update⟩
          | Except.ok _ =>
              ⟨none, some 10, some updated, 1, some SyncDecision.Update⟩
        else ⟨none, some 10, sink0, 0, some SyncDecision.NoOp⟩
    | SinkFetchResult.notFound =>
        match createResult with
        | Except.error e => ⟨some e, none, sink0, 1, some SyncDecision.Create⟩
        | Except.ok _ => ⟨none, some 10, some k8sSecret, 1, some SyncDecision.Create⟩
    | SinkFetchResult.errOther e => ⟨some e, none, sink0, 0, none⟩

/-- Observable outcome of a whole `Reconcile` call: the core outcome plus
whether `GetSecretValue` was invoked against the source. -/
structure ReconcileOutcome where
  err : Option String
  requeueAfterSec : Option Nat
  sink : Option SinkSecret
  writes : Nat
  sourceFetched : Bool
  decision : Option SyncDecision
deriving Repr, DecidableEq

/-- The whole `Reconcile` (controller lines 58-161).  A missing
`SecretManager` returns an empty result with no error (line 64); any
earlier-step error returns an empty result with that error unchanged;
otherwise the create-or-update tail runs. -/
def reconcile (smGet : SmGetResult) (awsConfig : Except String Unit)
    (sourceFetch : Except String AwsValue)
    (parse : String → Except String (List (String × String)))
    (ownerRefResult createResult updateResult : Except String Unit)
    (sinkFetch : SinkFetchResult) (sink0 : Option SinkSecret) : ReconcileOutcome :=
  match smGet with
  | SmGetResult.notFound => ⟨none, none, sink0, 0, false, none⟩
  | SmGetResult.errOther e => ⟨some e, none, sink0, 0, false, none⟩
  | SmGetResult.ok smName specName ns =>
    match awsConfig with
    | Except.error e => ⟨some e, none, sink0, 0, false, none⟩
    | Except.ok _ =>
      match sourceFetch with
      | Except.error e => ⟨some e, none, sink0, 0, true, none⟩
      | Except.ok v =>
        match parseSecretData parse v with
        | Except.error e => ⟨some e, none, sink0, 0, true, none⟩
        | Except.ok data =>
          let core := reconcileCore specName ns smName data
            ownerRefResult sinkFetch createResult updateResult sink0
          ⟨core.err, core.requeueAfterSec, core.sink, core.writes, true,
            core.decision⟩

/-! ### Lambda embedding (`lambda_sync_secret.go`) -/

/-- `loadConfig` (lambda lines 87-114): environment values with defaults
for region, prefix and namespace; an empty cluster name panics, modelled
as `none`. -/
structure LambdaConfig where
  eksClusterName : String
  region : String
  secretPrefix : String
  namespc : String
deriving Repr, DecidableEq

def loadConfig (envCluster envRegion envPrefix envNs : String) :
    Option LambdaConfig :=
  if envCluster = "" then none
  else some
    { eksClusterName := envCluster,
      region := if envRegion = "" then "us-east-1" else envRegion,
      secretPrefix := if envPrefix = "" then "eks-sync-" else envPrefix,
      namespc := if envNs = "" then "default" else envNs }

/-- `getSecretFromAWS` (lambda lines 117-157).  `awsConfig` and
`fetch` are the `LoadDefaultConfig` and `GetSecretValue` oracles;
`parseAny` is `json.Unmarshal` into `map[string]interface{}` with each
value already rendered by `fmt.Sprintf` with verb `v` (so values lose
byte-level fidelity), `none` meaning the string is not valid JSON.
A parse failure is NOT an error here: the raw string is stored under the
single key `"secret"`. -/
def getSecretFromAWS (awsConfig : Except String Unit)
    (fetch : Except String AwsValue)
    (parseAny : String → Option (List (String × String))) :
    Except String Payload :=
  match awsConfig with
  | Except.error e => Except.error ("failed to load AWS config: " ++ e)
  | Except.ok _ =>
    match fetch with
    | Except.error e => Except.error ("failed to get secret value: " ++ e)
    | Except.ok v =>
      match v with
      | AwsValue.str s =>
          match parseAny s with
          | none => Except.ok [("secret", strBytes s)]
          | some pairs => Except.ok (pairs.map fun kv => (kv.1, strBytes kv.2))
      | AwsValue.bin b => Except.ok [("secret", b)]
      | AwsValue.neither => Except.ok []

/-- Lambda lines 223-233: the secret built on the create path — labelled
`managed-by: aws-secrets-sync-lambda`, type `Opaque`, no owner
references. -/
def mkLambdaSecret (ns secretName : String) (data : Payload) : SinkSecret :=
  { name := secretName, namespc := ns,
    labels := [("managed-by", "aws-secrets-sync-lambda")],
    annotations := [], ownerRefs := [],
    data := data, secretType := "Opaque", extra := [] }

/-- `updateKubernetesSecret` (lambda lines 211-256).  The Go code branches
only on `err != nil` from `secretsClient.Get`: EVERY error — not just
not-found — takes the create path, building a fresh secret labelled
`managed-by: aws-secrets-sync-lambda`; when the get succeeds, only the
`Data` field of the fetched secret is replaced and `Update` is called
unconditionally (no diff, and `Type` is not reset).  Returns the error,
the sink state after the call, and the number of write calls. -/
def updateKubernetesSecret (ns secretName : String) (data : Payload)
    (sinkGet : Except String SinkSecret)
    (createResult updateResult : Except String Unit)
    (sink0 : Option SinkSecret) :
    Option String × Option SinkSecret × Nat :=
  match sinkGet with
  | Except.error _ =>
      let secret := mkLambdaSecret ns secretName data
      match createResult with
      | Except.error e => (some ("failed to create secret: " ++ e), sink0, 1)
      | Except.ok _ => (none, some secret, 1)
  | Except.ok existingSecret =>
      let updated := { existingSecret with data := data }
      match updateResult with
      | Except.error e => (some ("failed to update secret: " ++ e), sink0, 1)
      | Except.ok _ => (none, some updated, 1)

/-- Go `strings.HasPrefix s pre`: `pre` is a prefix of `s`, on the
character sequence. -/
def hasPrefix (s pre : String) : Bool := pre.toList.isPrefixOf s.toList

/-- Observable outcome of one `HandleRequest` invocation. -/
structure LambdaOutcome where
  err : Option String
  sink : Option SinkSecret
  sinkReads : Nat
  sinkWrites : Nat
  sourceFetched : Bool
deriving Repr, DecidableEq

/-- `HandleRequest` (lambda lines 44-84).  `detailParse` is the
`json.Unmarshal` of the event detail yielding the `secretId`;
`k8sClient` the `getKubernetesClient` oracle.  A secret id that does not
start with the configured prefix returns `nil` before any AWS or
Kubernetes call. -/
def handleRequest (cfg : LambdaConfig)
    (detailParse : Except String String)
    (awsConfig : Except String Unit)
    (sourceFetch : Except String AwsValue)
    (parseAny : String → Option (List (String × String)))
    (k8sClient : Except String Unit)
    (sinkGet : Except String SinkSecret)
    (createResult updateResult : Except String Unit)
    (sink0 : Option SinkSecret) : LambdaOutcome :=
  match detailParse with
  | Except.error e =>
      ⟨some ("failed to parse event detail: " ++ e), sink0, 0, 0, false⟩
  | Except.ok secretName =>
    if ! hasPrefix secretName cfg.secretPrefix then
      ⟨none, sink0, 0, 0, false⟩
    else
      match getSecretFromAWS awsConfig sourceFetch parseAny with
      | Except.error e =>
          ⟨some ("failed to get secret from AWS: " ++ e), sink0, 0, 0, true⟩
      | Except.ok data =>
        match k8sClient with
        | Except.error e =>
            ⟨some ("failed to create kubernetes client: " ++ e), sink0, 0, 0, true⟩
        | Except.ok _ =>
          match updateKubernetesSecret cfg.namespc secretName data
              sinkGet createResult updateResult sink0 with
          | (err, sink1, writes) =>
            match err with
            | some e =>
                ⟨some ("failed to update kubernetes secret: " ++ e),
                  sink1, 1, writes, true⟩
            | none => ⟨none, sink1, 1, writes, true⟩

/-! ### Shared helper lemmas -/

/-- The cluster state presented back to the next cycle's sink fetch. -/
def reflect : Option SinkSecret → SinkFetchResult
  | none => SinkFetchResult.notFound
  | some s => SinkFetchResult.found s

theorem Decide_eq_update_iff (desired observed : Payload) :
    Decide desired (some observed) = SyncDecision.Update ↔
      needUpdate observed desired = true := by
  unfold Decide
  by_cases h : needUpdate observed desired <;> simp [h]

theorem Decide_eq_noop_iff (desired observed : Payload) :
    Decide desired (some observed) = SyncDecision.NoOp ↔
      needUpdate observed desired = false := by
  unfold Decide
  by_cases h : needUpdate observed desired <;> simp [h]

/-- A payload with unique keys never differs from itself. -/
theorem needUpdate_self {p : Payload} (hnd : (keys p).Nodup) :
    needUpdate p p = false :=
  (needUpdate_eq_false_iff p p).mpr
    ⟨rfl, fun _kv hkv => lookupB_eq_some_of_mem hnd hkv⟩

/-! ### Claim theorems -/

/-- C1: for every desired payload and present observed payload,
`DiffPolicy.Decide` returns Update exactly when the key sets have
different sizes or some desired key is absent from the observed payload
or bound to different bytes; otherwise it returns NoOp, and on NoOp the
reconciler performs no write and leaves the sink unchanged.
Equivalently, NoOp is decided iff the two payloads are equal as
key-to-bytes maps. -/
theorem C1_decide_update_iff_and_noop_iff_mapeq
    (desired observed : Payload)
    (hde : (keys desired).Nodup) (hob : (keys observed).Nodup) :
    (Decide desired (some observed) = SyncDecision.Update ↔
      ((keys observed).length ≠ (keys desired).length ∨
        ∃ kv ∈ desired, lookupB kv.1 observed ≠ some kv.2))
    ∧ (Decide desired (some observed) = SyncDecision.NoOp ↔
        ∀ k, lookupB k desired = lookupB k observed)
    ∧ (Decide desired (some observed) = SyncDecision.NoOp →
        ∀ specName ns owner ex cr ur sink0, ex.data = observed →
          (reconcileCore specName ns owner desired (Except.ok ())
            (SinkFetchResult.found ex) cr ur sink0).writes = 0 ∧
          (reconcileCore specName ns owner desired (Except.ok ())
            (SinkFetchResult.found ex) cr ur sink0).sink = sink0) := by
  refine ⟨?_, ?_, ?_⟩
  · rw [Decide_eq_update_iff]
    have hb : needUpdate observed desired = true ↔
        ¬ needUpdate observed desired = false := by
      cases hc : needUpdate observed desired <;> simp
    rw [hb, needUpdate_eq_false_iff, keys_length, keys_length]
    push_neg
    constructor
    · intro h
      by_cases hl : observed.length = desired.length
      · exact Or.inr (h hl)
      · exact Or.inl hl
    · rintro (h | ⟨kv, hkv, hne⟩)
      · intro hc
        exact absurd hc h
      · intro _
        exact ⟨kv, hkv, hne⟩
  · rw [Decide_eq_noop_iff]
    exact needUpdate_eq_false_iff_mapeq observed desired hob hde
  · intro hnoop specName ns owner ex cr ur sink0 hex
    rw [Decide_eq_noop_iff] at hnoop
    have : needUpdate ex.data (mkK8sSecret specName ns owner desired).data
        = false := by
      rw [hex]
      exact hnoop
    constructor <;> simp [reconcileCore, this]

/-- Witness for C1 at a concrete pair of equal-as-maps payloads. -/
theorem C1_witness :
    Decide [("a", [1]), ("b", [2])] (some [("b", [2]), ("a", [1])])
        = SyncDecision.NoOp ↔
      ∀ k, lookupB k [("a", [1]), ("b", [2])]
        = lookupB k [("b", [2]), ("a", [1])] :=
  (C1_decide_update_iff_and_noop_iff_mapeq
    [("a", [1]), ("b", [2])] [("b", [2]), ("a", [1])]
    (by decide) (by decide)).2.1

/-- C2: when the sink fetch reports NotFound, the decision is Create and
the created sink secret's payload is byte-exact the desired payload:
the controller creates `mkK8sSecret` whose `data` is the desired data,
and the lambda (whose create path fires on any fetch error, NotFound
included) creates `mkLambdaSecret` whose `data` is the desired data. -/
theorem C2_create_on_absence
    (specName ns owner nsL nameL : String) (dataC dataL : Payload)
    (sink0C sink0L : Option SinkSecret) (gErr : String)
    (cr ur urL : Except String Unit) :
    ((reconcileCore specName ns owner dataC (Except.ok ())
        SinkFetchResult.notFound cr ur sink0C).decision
          = some SyncDecision.Create)
    ∧ ((reconcileCore specName ns owner dataC (Except.ok ())
        SinkFetchResult.notFound (Except.ok ()) ur sink0C).sink
          = some (mkK8sSecret specName ns owner dataC))
    ∧ (mkK8sSecret specName ns owner dataC).data = dataC
    ∧ ((updateKubernetesSecret nsL nameL dataL (Except.error gErr)
        (Except.ok ()) urL sink0L).2.1
          = some (mkLambdaSecret nsL nameL dataL))
    ∧ (mkLambdaSecret nsL nameL dataL).data = dataL := by
  refine ⟨?_, ?_, rfl, ?_, rfl⟩
  · cases cr <;> simp [reconcileCore]
  · simp [reconcileCore]
  · simp [updateKubernetesSecret]

/-- The create-or-update tail is idempotent: feeding the state it produced
back into a second identical call yields NoOp without touching the
state. -/
theorem reconcileCore_idem (specName ns owner : String) (data : Payload)
    (sink0 : Option SinkSecret) (hnd : (keys data).Nodup) :
    (reconcileCore specName ns owner data (Except.ok ())
      (reflect ((reconcileCore specName ns owner data (Except.ok ())
        (reflect sink0) (Except.ok ()) (Except.ok ()) sink0).sink))
      (Except.ok ()) (Except.ok ())
      ((reconcileCore specName ns owner data (Except.ok ())
        (reflect sink0) (Except.ok ()) (Except.ok ()) sink0).sink)).decision
        = some SyncDecision.NoOp
    ∧ (reconcileCore specName ns owner data (Except.ok ())
      (reflect ((reconcileCore specName ns owner data (Except.ok ())
        (reflect sink0) (Except.ok ()) (Except.ok ()) sink0).sink))
      (Except.ok ()) (Except.ok ())
      ((reconcileCore specName ns owner data (Except.ok ())
        (reflect sink0) (Except.ok ()) (Except.ok ()) sink0).sink)).sink
        = (reconcileCore specName ns owner data (Except.ok ())
          (reflect sink0) (Except.ok ()) (Except.ok ()) sink0).sink
    ∧ (reconcileCore specName ns owner data (Except.ok ())
      (reflect ((reconcileCore specName ns owner data (Except.ok ())
        (reflect sink0) (Except.ok ()) (Except.ok ()) sink0).sink))
      (Except.ok ()) (Except.ok ())
      ((reconcileCore specName ns owner data (Except.ok ())
        (reflect sink0) (Except.ok ()) (Except.ok ()) sink0).sink)).writes
        = 0 := by
  have hself : needUpdate data data = false := needUpdate_self hnd
  cases sink0 with
  | none =>
    refine ⟨?_, ?_, ?_⟩ <;>
      simp [reconcileCore, reflect, mkK8sSecret, hself]
  | some ex =>
    by_cases h : needUpdate ex.data data
    · refine ⟨?_, ?_, ?_⟩ <;>
        simp [reconcileCore, reflect, mkK8sSecret, hself, h]
    · refine ⟨?_, ?_, ?_⟩ <;>
        simp [reconcileCore, reflect, mkK8sSecret, hself, h]

/-- C3: running the cycle twice with the source always returning the same
value yields NoOp on the second run and an unchanged sink state; the
second-run sink fetch observes the state the first run left behind. -/
theorem C3_second_run_noop
    (smName specName ns : String) (v : AwsValue)
    (parse : String → Except String (List (String × String)))
    (data : Payload) (sink0 : Option SinkSecret)
    (hparse : parseSecretData parse v = Except.ok data)
    (hnd : (keys data).Nodup) :
    (reconcile (SmGetResult.ok smName specName ns) (Except.ok ())
      (Except.ok v) parse (Except.ok ()) (Except.ok ()) (Except.ok ())
      (reflect ((reconcile (SmGetResult.ok smName specName ns) (Except.ok ())
        (Except.ok v) parse (Except.ok ()) (Except.ok ()) (Except.ok ())
        (reflect sink0) sink0).sink))
      ((reconcile (SmGetResult.ok smName specName ns) (Except.ok ())
        (Except.ok v) parse (Except.ok ()) (Except.ok ()) (Except.ok ())
        (reflect sink0) sink0).sink)).decision = some SyncDecision.NoOp
    ∧ (reconcile (SmGetResult.ok smName specName ns) (Except.ok ())
      (Except.ok v) parse (Except.ok ()) (Except.ok ()) (Except.ok ())
      (reflect ((reconcile (SmGetResult.ok smName specName ns) (Except.ok ())
        (Except.ok v) parse (Except.ok ()) (Except.ok ()) (Except.ok ())
        (reflect sink0) sink0).sink))
      ((reconcile (SmGetResult.ok smName specName ns) (Except.ok ())
        (Except.ok v) parse (Except.ok ()) (Except.ok ()) (Except.ok ())
        (reflect sink0) sink0).sink)).sink
      = (reconcile (SmGetResult.ok smName specName ns) (Except.ok ())
        (Except.ok v) parse (Except.ok ()) (Except.ok ()) (Except.ok ())
        (reflect sink0) sink0).sink
    ∧ (reconcile (SmGetResult.ok smName specName ns) (Except.ok ())
      (Except.ok v) parse (Except.ok ()) (Except.ok ()) (Except.ok ())
      (reflect ((reconcile (SmGetResult.ok smName specName ns) (Except.ok ())
        (Except.ok v) parse (Except.ok ()) (Except.ok ()) (Except.ok ())
        (reflect sink0) sink0).sink))
      ((reconcile (SmGetResult.ok smName specName ns) (Except.ok ())
        (Except.ok v) parse (Except.ok ()) (Except.ok ()) (Except.ok ())
        (reflect sink0) sink0).sink)).writes = 0 := by
  have h := reconcileCore_idem specName ns smName data sink0 hnd
  simp only [reconcile, hparse] at *
  exact h

/-- Witness for C3: a concrete source value synced into an empty sink. -/
theorem C3_witness :
    (reconcile (SmGetResult.ok "sm" "app" "default") (Except.ok ())
      (Except.ok (AwsValue.str "x")) (fun _ => Except.ok [("a", "b")])
      (Except.ok ()) (Except.ok ()) (Except.ok ())
      (reflect ((reconcile (SmGetResult.ok "sm" "app" "default") (Except.ok ())
        (Except.ok (AwsValue.str "x")) (fun _ => Except.ok [("a", "b")])
        (Except.ok ()) (Except.ok ()) (Except.ok ())
        (reflect none) none).sink))
      ((reconcile (SmGetResult.ok "sm" "app" "default") (Except.ok ())
        (Except.ok (AwsValue.str "x")) (fun _ => Except.ok [("a", "b")])
        (Except.ok ()) (Except.ok ()) (Except.ok ())
        (reflect none) none).sink)).decision = some SyncDecision.NoOp :=
  (C3_second_run_noop "sm" "app" "default" (AwsValue.str "x")
    (fun _ => Except.ok [("a", "b")]) [("a", strBytes "b")] none
    rfl (by decide)).1

/-- C4 counterexample: the claim says Run returns the source error
UNCHANGED in every run, but the lambda wraps it: with the source failing
with "boom", `HandleRequest` returns
"failed to get secret from AWS: failed to get secret value: boom", not
"boom" (no sink write happens, as claimed). -/
theorem C4_counterexample :
    (handleRequest
      ⟨"demo-eks", "us-east-1", "eks-sync-", "default"⟩
      (Except.ok "eks-sync-db") (Except.ok ()) (Except.error "boom")
      (fun _ => none) (Except.ok ()) (Except.error "nf")
      (Except.ok ()) (Except.ok ()) none).err ≠ some "boom"
    ∧ (handleRequest
      ⟨"demo-eks", "us-east-1", "eks-sync-", "default"⟩
      (Except.ok "eks-sync-db") (Except.ok ()) (Except.error "boom")
      (fun _ => none) (Except.ok ()) (Except.error "nf")
      (Except.ok ()) (Except.ok ()) none).err
        = some "failed to get secret from AWS: failed to get secret value: boom"
    ∧ (handleRequest
      ⟨"demo-eks", "us-east-1", "eks-sync-", "default"⟩
      (Except.ok "eks-sync-db") (Except.ok ()) (Except.error "boom")
      (fun _ => none) (Except.ok ()) (Except.error "nf")
      (Except.ok ()) (Except.ok ()) none).sinkWrites = 0 := by
  refine ⟨by decide, rfl, rfl⟩

/-- C4 amended: if the source fetch fails, Apply is never invoked in
either implementation and the sink is untouched; the controller returns
the source error unchanged, while the lambda returns it wrapped in
context ("failed to get secret from AWS: failed to get secret value:
..."). -/
theorem C4_amended_source_error_short_circuit
    (e smName specName ns : String)
    (parse : String → Except String (List (String × String)))
    (orr cr ur : Except String Unit)
    (sinkFetch : SinkFetchResult) (sink0 : Option SinkSecret)
    (cfg : LambdaConfig) (secretName : String)
    (parseAny : String → Option (List (String × String)))
    (k8s : Except String Unit) (sinkGet : Except String SinkSecret)
    (crL urL : Except String Unit) (sink0L : Option SinkSecret)
    (hpre : hasPrefix secretName cfg.secretPrefix = true) :
    reconcile (SmGetResult.ok smName specName ns) (Except.ok ())
        (Except.error e) parse orr cr ur sinkFetch sink0
      = ⟨some e, none, sink0, 0, true, none⟩
    ∧ handleRequest cfg (Except.ok secretName) (Except.ok ())
        (Except.error e) parseAny k8s sinkGet crL urL sink0L
      = ⟨some ("failed to get secret from AWS: failed to get secret value: "
          ++ e), sink0L, 0, 0, true⟩ := by
  constructor
  · simp [reconcile]
  · simp only [handleRequest, hpre, getSecretFromAWS, Bool.not_true,
      Bool.false_eq_true, if_false]
    rw [← String.append_assoc]
    rfl

/-- Witness for C4's amended theorem at concrete inputs. -/
theorem C4_witness :
    reconcile (SmGetResult.ok "sm" "app" "default") (Except.ok ())
        (Except.error "down") (fun _ => Except.ok []) (Except.ok ())
        (Except.ok ()) (Except.ok ()) SinkFetchResult.notFound none
      = ⟨some "down", none, none, 0, true, none⟩
    ∧ handleRequest ⟨"demo-eks", "us-east-1", "eks-sync-", "default"⟩
        (Except.ok "eks-sync-db") (Except.ok ()) (Except.error "down")
        (fun _ => none) (Except.ok ()) (Except.error "nf")
        (Except.ok ()) (Except.ok ()) none
      = ⟨some ("failed to get secret from AWS: failed to get secret value: "
          ++ "down"), none, 0, 0, true⟩ :=
  C4_amended_source_error_short_circuit "down" "sm" "app" "default"
    (fun _ => Except.ok []) (Except.ok ()) (Except.ok ()) (Except.ok ())
    SinkFetchResult.notFound none
    ⟨"demo-eks", "us-east-1", "eks-sync-", "default"⟩ "eks-sync-db"
    (fun _ => none) (Except.ok ()) (Except.error "nf")
    (Except.ok ()) (Except.ok ()) none (by decide)

/-- C5 counterexample: the claim says every sink-fetch error other than
NotFound aborts the cycle without Apply and is propagated, but the
lambda treats ANY `Get` error (here "unauthorized") as absence: it
performs a create write and reports success. -/
theorem C5_counterexample :
    (handleRequest ⟨"demo-eks", "us-east-1", "eks-sync-", "default"⟩
      (Except.ok "eks-sync-db") (Except.ok ())
      (Except.ok (AwsValue.bin [7])) (fun _ => none) (Except.ok ())
      (Except.error "unauthorized") (Except.ok ()) (Except.ok ())
      none).sinkWrites = 1
    ∧ (handleRequest ⟨"demo-eks", "us-east-1", "eks-sync-", "default"⟩
      (Except.ok "eks-sync-db") (Except.ok ())
      (Except.ok (AwsValue.bin [7])) (fun _ => none) (Except.ok ())
      (Except.error "unauthorized") (Except.ok ()) (Except.ok ())
      none).err = none := by
  refine ⟨rfl, rfl⟩

/-- C5 amended: in the controller, a NotFound sink fetch is converted to
"absent" (the decision is Create, no error), and any other sink-fetch
error aborts the cycle with no write and is propagated unchanged; in the
lambda, EVERY sink-fetch error is treated as absence and leads to a
create attempt instead of propagation. -/
theorem C5_amended_sink_fetch_errors
    (specName ns owner : String) (data : Payload)
    (cr ur : Except String Unit) (sink0 : Option SinkSecret) (e : String)
    (nsL nameL : String) (dataL : Payload) (gErr : String)
    (urL : Except String Unit) (sink0L : Option SinkSecret) :
    ((reconcileCore specName ns owner data (Except.ok ())
        SinkFetchResult.notFound cr ur sink0).decision
      = some SyncDecision.Create)
    ∧ (reconcileCore specName ns owner data (Except.ok ())
        (SinkFetchResult.errOther e) cr ur sink0
      = ⟨some e, none, sink0, 0, none⟩)
    ∧ ((updateKubernetesSecret nsL nameL dataL (Except.error gErr)
        (Except.ok ()) urL sink0L)
      = (none, some (mkLambdaSecret nsL nameL dataL), 1)) := by
  refine ⟨?_, ?_, ?_⟩
  · cases cr <;> simp [reconcileCore]
  · simp [reconcileCore]
  · simp [updateKubernetesSecret]

/-- C6 counterexample: with a source string that fails JSON decoding
(the parse oracle returns `none` on "oops"), the lambda's source does
NOT fail the cycle — it silently wraps the raw text as the single
payload field "secret". -/
theorem C6_counterexample :
    getSecretFromAWS (Except.ok ()) (Except.ok (AwsValue.str "oops"))
        (fun _ => none)
      = Except.ok [("secret", strBytes "oops")] := by
  rfl

/-- C6 amended: in the controller an undecodable source string is fatal —
the cycle returns the decode error and never writes; in the lambda a
string that fails JSON decoding is silently wrapped as the single
payload field "secret" and the cycle proceeds. -/
theorem C6_amended_malformed
    (smName specName ns s e : String)
    (parse : String → Except String (List (String × String)))
    (orr cr ur : Except String Unit)
    (sinkFetch : SinkFetchResult) (sink0 : Option SinkSecret)
    (hparse : parse s = Except.error e)
    (parseAny : String → Option (List (String × String)))
    (sL : String) (hparseAny : parseAny sL = none) :
    reconcile (SmGetResult.ok smName specName ns) (Except.ok ())
        (Except.ok (AwsValue.str s)) parse orr cr ur sinkFetch sink0
      = ⟨some e, none, sink0, 0, true, none⟩
    ∧ getSecretFromAWS (Except.ok ()) (Except.ok (AwsValue.str sL)) parseAny
      = Except.ok [("secret", strBytes sL)] := by
  constructor
  · simp [reconcile, parseSecretData, hparse]
  · simp [getSecretFromAWS, hparseAny]

/-- Witness for C6's amended theorem at concrete inputs. -/
theorem C6_witness :
    reconcile (SmGetResult.ok "sm" "app" "default") (Except.ok ())
        (Except.ok (AwsValue.str "oops")) (fun _ => Except.error "bad json")
        (Except.ok ()) (Except.ok ()) (Except.ok ())
        SinkFetchResult.notFound none
      = ⟨some "bad json", none, none, 0, true, none⟩
    ∧ getSecretFromAWS (Except.ok ()) (Except.ok (AwsValue.str "oops"))
        (fun _ => none)
      = Except.ok [("secret", strBytes "oops")] :=
  C6_amended_malformed "sm" "app" "default" "oops" "bad json"
    (fun _ => Except.error "bad json") (Except.ok ()) (Except.ok ())
    (Except.ok ()) SinkFetchResult.notFound none rfl
    (fun _ => none) "oops" rfl

/-- C7: an Update overwrites only the data and type fields of the
existing secret.  The controller writes back the fetched secret with
only `Data` and `Type` replaced; the lambda writes it back with only
`Data` replaced.  The structure-update form makes the frame explicit:
name, namespace, labels, annotations, owner references and all other
fields are those of the fetched secret. -/
theorem C7_update_frame
    (specName ns owner : String) (data : Payload) (existing : SinkSecret)
    (cr : Except String Unit) (sink0 : Option SinkSecret)
    (hup : needUpdate existing.data data = true)
    (nsL nameL : String) (dataL : Payload) (existingL : SinkSecret)
    (crL : Except String Unit) (sink0L : Option SinkSecret) :
    ((reconcileCore specName ns owner data (Except.ok ())
        (SinkFetchResult.found existing) cr (Except.ok ()) sink0).sink
      = some { existing with data := data, secretType := "Opaque" })
    ∧ ({ existing with data := data, secretType := "Opaque" } : SinkSecret).labels
        = existing.labels
    ∧ ({ existing with data := data, secretType := "Opaque" } : SinkSecret).annotations
        = existing.annotations
    ∧ ({ existing with data := data, secretType := "Opaque" } : SinkSecret).ownerRefs
        = existing.ownerRefs
    ∧ ({ existing with data := data, secretType := "Opaque" } : SinkSecret).extra
        = existing.extra
    ∧ ((updateKubernetesSecret nsL nameL dataL (Except.ok existingL)
        crL (Except.ok ()) sink0L).2.1
      = some { existingL with data := dataL }) := by
  refine ⟨?_, rfl, rfl, rfl, rfl, ?_⟩
  · simp [reconcileCore, mkK8sSecret, hup]
  · simp [updateKubernetesSecret]

/-- Witness for C7 at a concrete differing payload. -/
theorem C7_witness :
    ((reconcileCore "app" "default" "sm" [("a", [1])] (Except.ok ())
        (SinkFetchResult.found
          ⟨"app", "default", [("team", "x")], [("note", "y")], ["sm"],
            [("a", [2])], "Opaque", [("rv", "7")]⟩)
        (Except.ok ()) (Except.ok ()) none).sink
      = some ⟨"app", "default", [("team", "x")], [("note", "y")], ["sm"],
          [("a", [1])], "Opaque", [("rv", "7")]⟩)
    ∧ (True ∧ True ∧ True ∧ True ∧
      ((updateKubernetesSecret "default" "eks-sync-db" [("a", [1])]
        (Except.ok ⟨"eks-sync-db", "default", [], [], [], [("a", [2])],
          "Opaque", []⟩)
        (Except.ok ()) (Except.ok ()) none).2.1
      = some ⟨"eks-sync-db", "default", [], [], [], [("a", [1])],
          "Opaque", []⟩)) := by
  have h := C7_update_frame "app" "default" "sm" [("a", [1])]
    ⟨"app", "default", [("team", "x")], [("note", "y")], ["sm"],
      [("a", [2])], "Opaque", [("rv", "7")]⟩
    (Except.ok ()) none (by decide)
    "default" "eks-sync-db" [("a", [1])]
    ⟨"eks-sync-db", "default", [], [], [], [("a", [2])], "Opaque", []⟩
    (Except.ok ()) none
  exact ⟨h.1, trivial, trivial, trivial, trivial, h.2.2.2.2.2⟩

/-- C8 counterexample: the controller's create path builds the secret
with NO labels and NO annotations (its only marking is the owner
reference), so a controller-created sink secret carries no fixed
label/annotation identifying the managing process. -/
theorem C8_counterexample :
    (reconcileCore "app-secret" "default" "sm-owner" [("a", [1])]
      (Except.ok ()) SinkFetchResult.notFound (Except.ok ()) (Except.ok ())
      none).sink
      = some (mkK8sSecret "app-secret" "default" "sm-owner" [("a", [1])])
    ∧ (mkK8sSecret "app-secret" "default" "sm-owner" [("a", [1])]).labels = []
    ∧ (mkK8sSecret "app-secret" "default" "sm-owner" [("a", [1])]).annotations
        = [] :=
  ⟨rfl, rfl, rfl⟩

/-- C8 amended: lambda-created sink secrets carry the fixed label
`managed-by: aws-secrets-sync-lambda`; controller-created sink secrets
carry no label and no annotation — their only mark of the managing
process is the owner reference to the SecretManager binding. -/
theorem C8_amended_labeling
    (specName ns owner nsL nameL : String) (dataC dataL : Payload)
    (sink0C sink0L : Option SinkSecret) (gErr : String)
    (ur urL : Except String Unit) :
    ((reconcileCore specName ns owner dataC (Except.ok ())
        SinkFetchResult.notFound (Except.ok ()) ur sink0C).sink
      = some (mkK8sSecret specName ns owner dataC))
    ∧ (mkK8sSecret specName ns owner dataC).labels = []
    ∧ (mkK8sSecret specName ns owner dataC).annotations = []
    ∧ (mkK8sSecret specName ns owner dataC).ownerRefs = [owner]
    ∧ ((updateKubernetesSecret nsL nameL dataL (Except.error gErr)
        (Except.ok ()) urL sink0L).2.1
      = some (mkLambdaSecret nsL nameL dataL))
    ∧ ("managed-by", "aws-secrets-sync-lambda")
        ∈ (mkLambdaSecret nsL nameL dataL).labels := by
  refine ⟨?_, rfl, rfl, rfl, ?_, ?_⟩
  · simp [reconcileCore]
  · simp [updateKubernetesSecret]
  · simp [mkLambdaSecret]

/-- Every path through the create-or-update tail couples the requeue with
the error: success requeues after 10 seconds, failure does not requeue. -/
theorem reconcileCore_requeue_spec (specName ns owner : String)
    (data : Payload) (orr : Except String Unit)
    (sinkFetch : SinkFetchResult) (cr ur : Except String Unit)
    (sink0 : Option SinkSecret) :
    ((reconcileCore specName ns owner data orr sinkFetch cr ur
        sink0).err = none →
      (reconcileCore specName ns owner data orr sinkFetch cr ur
        sink0).requeueAfterSec = some 10)
    ∧ (∀ e, (reconcileCore specName ns owner data orr sinkFetch cr ur
        sink0).err = some e →
      (reconcileCore specName ns owner data orr sinkFetch cr ur
        sink0).requeueAfterSec = none) := by
  cases orr with
  | error e => simp [reconcileCore]
  | ok u =>
    cases sinkFetch with
    | found ex =>
      by_cases h : needUpdate ex.data data
      · cases ur <;> simp [reconcileCore, mkK8sSecret, h]
      · simp [reconcileCore, mkK8sSecret, h]
    | notFound => cases cr <;> simp [reconcileCore]
    | errOther e => simp [reconcileCore]

/-- C9 amended: the reconciler requests the fixed 10-second requeue only
when the cycle completes without error; every failing cycle returns an
empty result carrying the error (requeue-on-failure is the trigger's
backoff, not a fixed interval), and a missing SecretManager object
returns an empty result with no error and no requeue. -/
theorem C9_amended_requeue
    (smGet : SmGetResult) (awsConfig : Except String Unit)
    (sourceFetch : Except String AwsValue)
    (parse : String → Except String (List (String × String)))
    (orr cr ur : Except String Unit)
    (sinkFetch : SinkFetchResult) (sink0 : Option SinkSecret) :
    ((reconcile smGet awsConfig sourceFetch parse orr cr ur sinkFetch
        sink0).err = none → smGet ≠ SmGetResult.notFound →
      (reconcile smGet awsConfig sourceFetch parse orr cr ur sinkFetch
        sink0).requeueAfterSec = some 10)
    ∧ (smGet = SmGetResult.notFound →
      (reconcile smGet awsConfig sourceFetch parse orr cr ur sinkFetch
        sink0).err = none ∧
      (reconcile smGet awsConfig sourceFetch parse orr cr ur sinkFetch
        sink0).requeueAfterSec = none)
    ∧ (∀ e, (reconcile smGet awsConfig sourceFetch parse orr cr ur sinkFetch
        sink0).err = some e →
      (reconcile smGet awsConfig sourceFetch parse orr cr ur sinkFetch
        sink0).requeueAfterSec = none) := by
  cases smGet with
  | notFound =>
    refine ⟨?_, ?_, ?_⟩
    · intro _ h2
      exact absurd rfl h2
    · intro _
      exact ⟨rfl, rfl⟩
    · intro e he
      simp [reconcile] at he
  | errOther m =>
    refine ⟨?_, ?_, ?_⟩
    · intro h1 _
      simp [reconcile] at h1
    · intro h
      exact absurd h (by simp)
    · intro e _
      rfl
  | ok smName specName ns =>
    refine ⟨?_, ?_, ?_⟩
    · intro h1 _
      cases awsConfig with
      | error e => simp [reconcile] at h1
      | ok u =>
        cases sourceFetch with
        | error e => simp [reconcile] at h1
        | ok v =>
          cases hp : parseSecretData parse v with
          | error e => simp [reconcile, hp] at h1
          | ok data =>
            simp only [reconcile, hp] at h1 ⊢
            exact (reconcileCore_requeue_spec specName ns smName data orr
              sinkFetch cr ur sink0).1 h1
    · intro h
      exact absurd h (by simp)
    · intro e he
      cases awsConfig with
      | error e2 => rfl
      | ok u =>
        cases sourceFetch with
        | error e2 => rfl
        | ok v =>
          cases hp : parseSecretData parse v with
          | error e2 => simp [reconcile, hp]
          | ok data =>
            simp only [reconcile, hp] at he ⊢
            exact (reconcileCore_requeue_spec specName ns smName data orr
              sinkFetch cr ur sink0).2 e he

/-- Witness for C9's amended theorem: a concrete successful cycle
requeues after 10 seconds. -/
theorem C9_witness :
    (reconcile (SmGetResult.ok "sm" "app" "default") (Except.ok ())
      (Except.ok (AwsValue.bin [7])) (fun _ => Except.ok [])
      (Except.ok ()) (Except.ok ()) (Except.ok ())
      SinkFetchResult.notFound none).requeueAfterSec = some 10 :=
  (C9_amended_requeue (SmGetResult.ok "sm" "app" "default") (Except.ok ())
    (Except.ok (AwsValue.bin [7])) (fun _ => Except.ok [])
    (Except.ok ()) (Except.ok ()) (Except.ok ())
    SinkFetchResult.notFound none).1 rfl (by decide)

/-- C9 counterexample: a cycle that completes with a source-fetch failure
does NOT request the fixed 10-second requeue — it returns an empty
result with the error, so the result does not always request a requeue
after the fixed duration. -/
theorem C9_counterexample :
    (reconcile (SmGetResult.ok "sm" "app" "default") (Except.ok ())
      (Except.error "down") (fun _ => Except.ok []) (Except.ok ())
      (Except.ok ()) (Except.ok ()) SinkFetchResult.notFound
      none).requeueAfterSec = none
    ∧ (reconcile (SmGetResult.ok "sm" "app" "default") (Except.ok ())
      (Except.error "down") (fun _ => Except.ok []) (Except.ok ())
      (Except.ok ()) (Except.ok ()) SinkFetchResult.notFound
      none).err = some "down" :=
  ⟨rfl, rfl⟩

/-- C10: an event whose secretId lacks the configured prefix is skipped:
the handler returns success with no source fetch and no sink read or
write, leaving the sink untouched. -/
theorem C10_prefix_skip (cfg : LambdaConfig) (secretName : String)
    (awsConfig : Except String Unit) (sourceFetch : Except String AwsValue)
    (parseAny : String → Option (List (String × String)))
    (k8s : Except String Unit) (sinkGet : Except String SinkSecret)
    (cr ur : Except String Unit) (sink0 : Option SinkSecret)
    (h : hasPrefix secretName cfg.secretPrefix = false) :
    handleRequest cfg (Except.ok secretName) awsConfig sourceFetch parseAny
      k8s sinkGet cr ur sink0 = ⟨none, sink0, 0, 0, false⟩ := by
  simp [handleRequest, h]

/-- Witness for C10 at a concrete non-matching secret id. -/
theorem C10_witness :
    handleRequest ⟨"demo-eks", "us-east-1", "eks-sync-", "default"⟩
      (Except.ok "other-secret") (Except.ok ())
      (Except.ok (AwsValue.bin [7])) (fun _ => none) (Except.ok ())
      (Except.error "nf") (Except.ok ()) (Except.ok ()) none
      = ⟨none, none, 0, 0, false⟩ :=
  C10_prefix_skip ⟨"demo-eks", "us-east-1", "eks-sync-", "default"⟩
    "other-secret" (Except.ok ()) (Except.ok (AwsValue.bin [7]))
    (fun _ => none) (Except.ok ()) (Except.error "nf")
    (Except.ok ()) (Except.ok ()) none (by decide)

end SecretSync
